import Mathlib

/-!
# Verification of the Audius Solana client instruction pipeline

Shallow embedding of `src/js_client/audius_instructions.js`: the schema-driven
binary codec the client drives through the `borsh` library, the two payload
builders (`validateSignature` raw-message path and `createAndVerifyMessage`
structured track-data path), the post-serialization length patch, the
valid-signer record slicing, and the two-instruction transaction layout.

Bytes are modelled as `Nat` (well-formed byte streams have all entries `< 256`;
the conformance predicate carries those bounds). JS strings enter the pipeline
as their UTF-8 byte lists.
-/

/-! ## Schema-driven codec

Modelled from the spec: the encoder/decoder is the external `borsh` JS library
(not part of `src/`); §4.1 of the spec fixes its contract. Supported field
kinds: `u8`, fixed-length byte array `[N]`, 4-byte-little-endian
length-prefixed UTF-8 `string`, nested `struct` (fields in declared order,
concatenated), and `enum` (1-byte tag = 0-based index of the active variant in
the declared, ordered variant list, followed by the variant's serialized
payload; the client selects the variant by name via the `choose` field). -/

mutual

/-- A value conforming (shape-wise) to some schema: bytes are `Nat`s, strings
are their UTF-8 byte lists, an enum value carries the chosen variant's name. -/
inductive BValue where
  | u8 (n : Nat)
  | bytes (bs : List Nat)
  | str (s : List Nat)
  | struct (fields : BValueList)
  | enumv (choose : String) (v : BValue)

inductive BValueList where
  | nil
  | cons (hd : BValue) (tl : BValueList)

end

mutual

/-- Schemas: the field kinds the client's schema maps declare. -/
inductive BSchema where
  | u8
  | bytes (n : Nat)
  | str
  | struct (fields : BSchemaList)
  | enum (variants : BVariantList)

inductive BSchemaList where
  | nil
  | cons (hd : BSchema) (tl : BSchemaList)

/-- An ordered list of named enum variants. -/
inductive BVariantList where
  | nil
  | cons (name : String) (s : BSchema) (tl : BVariantList)

end

/-- 4-byte little-endian encoding of a length, as the codec's string
length prefix writes it. -/
def u32le (n : Nat) : List Nat :=
  [n % 256, n / 256 % 256, n / 65536 % 256, n / 16777216 % 256]

/-- First variant whose name matches, with its 0-based index: the enum
serializer scans the declared variant list in order and emits the index of the
first name equal to the value's `choose` field. -/
def findVariant (name : String) : BVariantList → Option (Nat × BSchema)
  | .nil => none
  | .cons n s tl =>
      if n = name then some (0, s)
      else (findVariant name tl).map (fun p => (p.1 + 1, p.2))

mutual

/-- Schema-directed serialization; `none` is a shape violation (the spec's
`SchemaMismatch`). `u8` wraps modulo 256 as a byte write does. -/
def encode : BSchema → BValue → Option (List Nat)
  | .u8, .u8 n => some [n % 256]
  | .bytes m, .bytes bs => if bs.length = m then some bs else none
  | .str, .str s => some (u32le s.length ++ s)
  | .struct ss, .struct vs => encodeFields ss vs
  | .enum variants, .enumv name v =>
      match findVariant name variants with
      | some (i, s) => (encode s v).map (fun bs => i :: bs)
      | none => none
  | _, _ => none

def encodeFields : BSchemaList → BValueList → Option (List Nat)
  | .nil, .nil => some []
  | .cons s ss, .cons v vs =>
      match encode s v, encodeFields ss vs with
      | some bs, some rest => some (bs ++ rest)
      | _, _ => none
  | _, _ => none

end

mutual

/-- Schema-directed deserialization, the exact inverse of `encode`; returns the
decoded value and the remaining bytes, `none` on a shape violation. -/
def decode : BSchema → List Nat → Option (BValue × List Nat)
  | .u8, b :: rest => some (.u8 b, rest)
  | .u8, [] => none
  | .bytes m, bs => if m ≤ bs.length then some (.bytes (bs.take m), bs.drop m) else none
  | .str, b0 :: b1 :: b2 :: b3 :: rest =>
      let len := b0 + 256 * b1 + 65536 * b2 + 16777216 * b3
      if len ≤ rest.length then some (.str (rest.take len), rest.drop len) else none
  | .str, _ => none
  | .struct ss, bs => (decodeFields ss bs).map (fun p => (.struct p.1, p.2))
  | .enum variants, t :: rest => decodeVariant variants t rest
  | .enum _, [] => none

def decodeFields : BSchemaList → List Nat → Option (BValueList × List Nat)
  | .nil, bs => some (.nil, bs)
  | .cons s ss, bs =>
      match decode s bs with
      | some (v, rest) =>
          (decodeFields ss rest).map (fun p => (.cons v p.1, p.2))
      | none => none

/-- Reads the variant selected by tag `t` out of the declared list. -/
def decodeVariant : BVariantList → Nat → List Nat → Option (BValue × List Nat)
  | .nil, _, _ => none
  | .cons n s _, 0, bs => (decode s bs).map (fun p => (.enumv n p.1, p.2))
  | .cons _ _ tl, t + 1, bs => decodeVariant tl t bs

end

mutual

/-- Conformance of a value to a schema: the shape matches and all entries are
genuine bytes (`< 256`), string lengths fit the 4-byte prefix, and the enum
tag fits one byte. -/
inductive Conforms : BSchema → BValue → Prop where
  | u8 {n : Nat} : n < 256 → Conforms .u8 (.u8 n)
  | bytes {m : Nat} {bs : List Nat} :
      bs.length = m → (∀ b ∈ bs, b < 256) → Conforms (.bytes m) (.bytes bs)
  | str {s : List Nat} :
      s.length < 4294967296 → (∀ b ∈ s, b < 256) → Conforms .str (.str s)
  | struct {ss : BSchemaList} {vs : BValueList} :
      ConformsFields ss vs → Conforms (.struct ss) (.struct vs)
  | enumv {variants : BVariantList} {name : String} {i : Nat} {s : BSchema}
      {v : BValue} :
      findVariant name variants = some (i, s) → i < 256 → Conforms s v →
      Conforms (.enum variants) (.enumv name v)

inductive ConformsFields : BSchemaList → BValueList → Prop where
  | nil : ConformsFields .nil .nil
  | cons {s : BSchema} {ss : BSchemaList} {v : BValue} {vs : BValueList} :
      Conforms s v → ConformsFields ss vs → ConformsFields (.cons s ss) (.cons v vs)

end

/-! ## Program definitions from `src/js_client/audius_instructions.js` -/

/-- The schema of `SignatureData` in `validateSignature` (lines 70-80):
`signature : [64]`, `recovery_id : u8`, `message : [msg.length]`. -/
def signatureDataSchema (msgLen : Nat) : BSchema :=
  .struct (.cons (.bytes 64) (.cons .u8 (.cons (.bytes msgLen) .nil)))

/-- The `InstructionEnum` schema of `validateSignature` (lines 61-81): declared
variant order `[initSignerGroup, initValidSigner, clearValidSigner,
instruction]`. The JS schema map declares no layout for the first three
variants (they are never serialized on this path); empty structs hold their
places in the declared order. -/
def rawVariantOrder (msgLen : Nat) : BVariantList :=
  .cons "initSignerGroup" (.struct .nil)
    (.cons "initValidSigner" (.struct .nil)
      (.cons "clearValidSigner" (.struct .nil)
        (.cons "instruction" (signatureDataSchema msgLen) .nil)))

/-- The raw-message `InstructionEnum` schema as an enum over that order. -/
def rawInstructionSchema (msgLen : Nat) : BSchema :=
  .enum (rawVariantOrder msgLen)

/-- `borsh.serialize(instructionSchema, instructionData)` of the raw-message
path (lines 83-97): the envelope value chooses variant `"instruction"` and
carries `{signature, recovery_id, message}`. -/
def serializeRawEnvelope (sig : List Nat) (recid : Nat) (msg : List Nat) :
    Option (List Nat) :=
  encode (rawInstructionSchema msg.length)
    (.enumv "instruction"
      (.struct (.cons (.bytes sig) (.cons (.u8 recid) (.cons (.bytes msg) .nil)))))

/-- The 4-byte length slot of `validateSignature` lines 99-104: a zeroed
4-byte `ArrayBuffer`; `DataView.setInt8(0, len)` when `len < 256`, else
`DataView.setInt16(0, len)` — `setInt16` without a little-endian flag writes
BIG-endian, so the high byte of `len mod 2^16` lands first. Both setters wrap
their value modulo the written width. -/
def lenSlot (len : Nat) : List Nat :=
  if len < 256 then [len % 256, 0, 0, 0]
  else [len % 65536 / 256, len % 256, 0, 0]

/-- `serializedInstructionArray.splice(66, 0, ...lenBuffer)` (line 107):
insert the 4 slot bytes at offset 66, removing nothing. -/
def patchEnvelope (env : List Nat) (msgLen : Nat) : List Nat :=
  env.take 66 ++ lenSlot msgLen ++ env.drop 66

/-- `accInfo.data.toJSON().data.slice(1, 33)` (lines 50-52 and 151-153): the
signer-group key is read out of the fetched valid-signer account bytes by
taking bytes 1 through 32 inclusive. Total: no length check or error path
exists in the code. -/
def extractSignerGroup (data : List Nat) : List Nat :=
  (data.drop 1).take 32

/-- The `TrackData` schema of `createAndVerifyMessage` (lines 160-172 and
199-209): three `string` fields in order `user_id`, `track_id`, `source`. -/
def trackDataSchema : BSchema :=
  .struct (.cons .str (.cons .str (.cons .str .nil)))

/-- The `TrackData` value (lines 155-159); each field is the UTF-8 byte list
of the corresponding string argument. -/
def trackDataValue (userId trackId source : List Nat) : BValue :=
  .struct (.cons (.str userId) (.cons (.str trackId) (.cons (.str source) .nil)))

/-- `borsh.serialize(trackDataSchema, trackData)` (line 174). -/
def serializeTrackData (userId trackId source : List Nat) : Option (List Nat) :=
  encode trackDataSchema (trackDataValue userId trackId source)

/-- `keccak256(serializedTrackData.toJSON().data)` (line 175): the digest the
structured path signs, with the hash function held abstract. -/
def structuredDigest (keccak : List Nat → List Nat)
    (userId trackId source : List Nat) : Option (List Nat) :=
  (serializeTrackData userId trackId source).map keccak

/-- The `InstructionEnum` schema of `createAndVerifyMessage` (lines 179-210):
a single variant `"instruction"` whose payload is
`{track_data : TrackData, signature : [64], recovery_id : u8}`. -/
def structuredVariantOrder : BVariantList :=
  .cons "instruction"
    (.struct (.cons trackDataSchema (.cons (.bytes 64) (.cons .u8 .nil)))) .nil

/-- The structured `InstructionEnum` schema as an enum over that single
variant. -/
def structuredInstructionSchema : BSchema :=
  .enum structuredVariantOrder

/-- `borsh.serialize(instructionSchema, instructionData)` of the structured
path (lines 212-226). -/
def serializeStructuredEnvelope (userId trackId source sig : List Nat)
    (recid : Nat) : Option (List Nat) :=
  encode structuredInstructionSchema
    (.enumv "instruction"
      (.struct (.cons (trackDataValue userId trackId source)
        (.cons (.bytes sig) (.cons (.u8 recid) .nil)))))

/-! ## Transaction layout -/

/-- The arguments `Secp256k1Program.createInstructionWithPublicKey` receives
(lines 109-116 and 230-237); the instruction's wire layout is the ledger
library's and is kept abstract. -/
structure SecpCheckArgs where
  publicKey : List Nat
  message : List Nat
  signature : List Nat
  recoveryId : Nat
deriving DecidableEq

/-- Account references appearing in the built instructions: a concrete key's
bytes, or one of the client's fixed base58 program constants (kept opaque). -/
inductive AccountRef where
  | key (bytes : List Nat)
  | audiusProgram
  | createAndVerifyProgram
  | instructionsSysvar
deriving DecidableEq

/-- An instruction added to the transaction: either the ledger-native
Secp256k1 signature-check instruction, or a program instruction with its
account metas `(ref, isSigner, isWritable)` and opaque data bytes. -/
inductive SolInstr where
  | secpCheck (args : SecpCheckArgs)
  | programCall (programId : AccountRef) (keys : List (AccountRef × Bool × Bool))
      (data : List Nat)
deriving DecidableEq

/-- The instruction list `validateSignature` adds to its transaction
(lines 60, 109-128): the Secp256k1 check first, then the Audius program
instruction whose data is the patched envelope and whose keys are the valid
signer, the extracted signer group, and the instructions sysvar. -/
def validateSignatureInstrs (pubKey sig : List Nat) (recid : Nat)
    (msg validSignerKey accData : List Nat) : Option (List SolInstr) :=
  (serializeRawEnvelope sig recid msg).map (fun env =>
    [ .secpCheck ⟨pubKey, msg, sig, recid⟩,
      .programCall .audiusProgram
        [(.key validSignerKey, false, false),
         (.key (extractSignerGroup accData), false, false),
         (.instructionsSysvar, false, false)]
        (patchEnvelope env msg.length) ])

/-- The instruction list `createAndVerifyMessage` adds to its transaction
(lines 228-250): the Secp256k1 check over the serialized track data first,
then the create-and-verify program instruction whose data is the serialized
structured envelope. -/
def createAndVerifyInstrs (pubKey sig : List Nat) (recid : Nat)
    (userId trackId source validSignerKey accData : List Nat) :
    Option (List SolInstr) :=
  (serializeTrackData userId trackId source).bind (fun track =>
    (serializeStructuredEnvelope userId trackId source sig recid).map (fun env =>
      [ .secpCheck ⟨pubKey, track, sig, recid⟩,
        .programCall .createAndVerifyProgram
          [(.key validSignerKey, false, false),
           (.key (extractSignerGroup accData), false, false),
           (.audiusProgram, false, false),
           (.instructionsSysvar, false, false)]
          env ]))

/-! ## Codec round-trip -/

/-- The tag `findVariant` produces selects, in `decodeVariant`, exactly the
variant it was found at, with the same name and schema. -/
theorem decodeVariant_findVariant {name : String} {i : Nat} {s : BSchema} :
    ∀ {vs : BVariantList}, findVariant name vs = some (i, s) → ∀ bs : List Nat,
      decodeVariant vs i bs =
        (decode s bs).map (fun p => (.enumv name p.1, p.2))
  | .nil, h => by simp [findVariant] at h
  | .cons n sc tl, h => by
      intro bs
      by_cases hn : n = name
      · simp only [findVariant, if_pos hn] at h
        obtain ⟨hi, hs⟩ := Prod.mk.injEq .. ▸ Option.some.injEq .. ▸ h
        subst hn; cases hi; cases hs
        simp [decodeVariant]
      · simp only [findVariant, if_neg hn, Option.map_eq_some'] at h
        obtain ⟨⟨j, s2⟩, hj, hjs⟩ := h
        obtain ⟨hj1, hj2⟩ := Prod.mk.injEq .. ▸ hjs
        subst hj2
        subst hj1
        simpa [decodeVariant] using decodeVariant_findVariant hj bs

mutual

/-- Decoding inverts encoding on any conforming value, leaving trailing bytes
untouched. -/
theorem decode_encode_aux {S : BSchema} {v : BValue} (h : Conforms S v)
    (rest : List Nat) :
    ∃ bs, encode S v = some bs ∧ decode S (bs ++ rest) = some (v, rest) :=
  match h with
  | .u8 hn => by
      refine ⟨[_ % 256], rfl, ?_⟩
      simp [decode, Nat.mod_eq_of_lt hn]
  | @Conforms.bytes m bs hlen _ => by
      refine ⟨bs, by simp [encode, hlen], ?_⟩
      have h1 : (bs ++ rest).take m = bs := by subst hlen; exact List.take_left ..
      have h2 : (bs ++ rest).drop m = rest := by subst hlen; exact List.drop_left ..
      have h3 : m ≤ bs.length + rest.length := by omega
      simp [decode, h1, h2, h3]
  | @Conforms.str s hlt _ => by
      refine ⟨u32le s.length ++ s, rfl, ?_⟩
      have hlen : s.length % 256 + 256 * (s.length / 256 % 256) +
          65536 * (s.length / 65536 % 256) +
          16777216 * (s.length / 16777216 % 256) = s.length := by omega
      have h1 : (s ++ rest).take s.length = s := List.take_left ..
      have h2 : (s ++ rest).drop s.length = rest := List.drop_left ..
      have h3 : s.length ≤ (s ++ rest).length := by simp
      simp [decode, u32le, hlen, h1, h2, h3]
  | .struct hf => by
      obtain ⟨bs, h1, h2⟩ := decodeFields_encodeFields_aux hf rest
      exact ⟨bs, by simpa [encode] using h1, by simp [decode, h2]⟩
  | @Conforms.enumv variants name i s v hf _ hc => by
      obtain ⟨bs, h1, h2⟩ := decode_encode_aux hc rest
      refine ⟨i :: bs, by simp [encode, hf, h1], ?_⟩
      simp [decode, decodeVariant_findVariant hf, h2]

/-- Field-list version of `decode_encode_aux`. -/
theorem decodeFields_encodeFields_aux {ss : BSchemaList} {vs : BValueList}
    (h : ConformsFields ss vs) (rest : List Nat) :
    ∃ bs, encodeFields ss vs = some bs ∧
      decodeFields ss (bs ++ rest) = some (vs, rest) :=
  match h with
  | .nil => ⟨[], rfl, rfl⟩
  | .cons hc hcs => by
      obtain ⟨bs2, h3, h4⟩ := decodeFields_encodeFields_aux hcs rest
      obtain ⟨bs1, h1, h2⟩ := decode_encode_aux hc (bs2 ++ rest)
      refine ⟨bs1 ++ bs2, by simp [encodeFields, h1, h3], ?_⟩
      simp [decodeFields, List.append_assoc, h2, h4]

end

/-! ## ECDSA signing and public-key recovery

Modelled from the spec: `secp256k1.ecdsaSign` / public-key recovery are the
external `secp256k1` native library (not part of `src/`); §4.2 of the spec
fixes their contract (ECDSA over the secp256k1 curve). The curve group is
cyclic of prime order `n`, so it is modelled as the additive group `ZMod n`
with an arbitrary generator `g` and scalar action by ring multiplication; the
x-coordinate-mod-`n` map `xc` of a point is held abstract. The recovery id's
whole role is to single out, from the several curve points sharing the
signature's `r = xc R`, the actual nonce point `R`; the model therefore hands
the recovery step `R` itself. -/

/-- The public key derived from private scalar `d`: the point `d • g`. -/
def publicKeyOf (n : Nat) (g d : ZMod n) : ZMod n := d * g

/-- ECDSA signing of digest `z` with private scalar `d` and nonce `k`:
`r = xc (k • g)` and `s = k⁻¹ * (z + r * d)`. -/
def ecdsaSign (n : Nat) [Fact (Nat.Prime n)] (xc : ZMod n → ZMod n)
    (g d k z : ZMod n) : ZMod n × ZMod n :=
  (xc (k * g), k⁻¹ * (z + xc (k * g) * d))

/-- Public-key recovery from the nonce point `R` (as singled out by the
recovery id), the digest `z` and the signature scalar `s`:
`Q = r⁻¹ • (s • R - z • g)` where `r = xc R`. -/
def recoverPublicKey (n : Nat) [Fact (Nat.Prime n)] (xc : ZMod n → ZMod n)
    (g R z s : ZMod n) : ZMod n :=
  (xc R)⁻¹ * (s * R - z * g)

instance : Fact (Nat.Prime 7) := ⟨by norm_num⟩

/-! ## Serialized-envelope computations -/

/-- The raw-message envelope's bytes: tag `3`, the 64 signature bytes, the
recovery id, then the message bytes. -/
theorem serializeRawEnvelope_eq (sig : List Nat) (recid : Nat) (msg : List Nat)
    (h : sig.length = 64) :
    serializeRawEnvelope sig recid msg =
      some (3 :: (sig ++ (recid % 256) :: msg)) := by
  simp [serializeRawEnvelope, rawInstructionSchema, signatureDataSchema,
    encode, encodeFields, findVariant, h]

/-- The serialized `TrackData` bytes: the three length-prefixed fields in
declared order. -/
theorem serializeTrackData_eq (u t s : List Nat) :
    serializeTrackData u t s =
      some (u32le u.length ++ (u ++ (u32le t.length ++ (t ++
        (u32le s.length ++ s))))) := by
  simp [serializeTrackData, trackDataValue, trackDataSchema, encode,
    encodeFields]

/-- The structured envelope's bytes: tag `0`, the serialized track data, the
64 signature bytes, then the recovery id. -/
theorem serializeStructuredEnvelope_eq (u t s sig : List Nat) (recid : Nat)
    (h : sig.length = 64) :
    serializeStructuredEnvelope u t s sig recid =
      some (0 :: (u32le u.length ++ (u ++ (u32le t.length ++ (t ++
        (u32le s.length ++ (s ++ (sig ++ [recid % 256])))))))) := by
  simp [serializeStructuredEnvelope, structuredInstructionSchema,
    trackDataSchema, trackDataValue, encode, encodeFields, findVariant, h]

/-! ## Claims -/

/-- C1: the code's 4-byte length slot gives `[10,0,0,0]` for length 10, but
for length 300 it writes `[1,44,0,0]` — `DataView.setInt16` without the
little-endian flag stores BIG-endian — refuting the claimed little-endian
`[44,1]` in the first two bytes. -/
theorem lenSlot_boundary_values :
    lenSlot 10 = [10, 0, 0, 0] ∧ lenSlot 300 = [1, 44, 0, 0] ∧
      lenSlot 300 ≠ [44, 1, 0, 0] := by decide

/-- C10: bytes 2 and 3 of the length slot are always zero; for lengths of 256
or more the slot depends only on the length modulo 2^16, so the two-byte
write wraps, and in particular lengths 300 and 65836 produce identical slots
— lengths of 65536 or more are not faithfully represented. -/
theorem lenSlot_high_bytes_zero_and_wrap (len a b : Nat) (ha : 256 ≤ a)
    (hb : 256 ≤ b) (hab : a % 65536 = b % 65536) :
    (lenSlot len).drop 2 = [0, 0] ∧ lenSlot a = lenSlot b ∧
      lenSlot 300 = lenSlot 65836 ∧ (300 : Nat) ≠ 65836 := by
  have ha2 : ¬a < 256 := by omega
  have hb2 : ¬b < 256 := by omega
  refine ⟨by unfold lenSlot; split <;> rfl, ?_, by decide, by decide⟩
  simp only [lenSlot, if_neg ha2, if_neg hb2, List.cons.injEq, and_true]
  exact ⟨by rw [hab], by omega⟩

/-- Witness for C10 at `len = 5`, `a = 300`, `b = 65836`. -/
theorem lenSlot_high_bytes_zero_and_wrap_witness :
    (lenSlot 5).drop 2 = [0, 0] ∧ lenSlot 300 = lenSlot 65836 ∧
      lenSlot 300 = lenSlot 65836 ∧ (300 : Nat) ≠ 65836 :=
  lenSlot_high_bytes_zero_and_wrap 5 300 65836 (by decide) (by decide) (by decide)

/-- C5 counterexample: on a 53-byte record laid out `[version, addr(20),
group(32)]` — version 0, address bytes all 1, group bytes all 2 — the
extraction returns the 20 address bytes followed by the first 12 group bytes,
not the 32-byte group key. -/
theorem extractSignerGroup_addr_layout_cex :
    extractSignerGroup (0 :: (List.replicate 20 1 ++ List.replicate 32 2)) =
        List.replicate 20 1 ++ List.replicate 12 2 ∧
      extractSignerGroup (0 :: (List.replicate 20 1 ++ List.replicate 32 2)) ≠
        List.replicate 32 2 := by decide

/-- C5 amended: the extraction returns exactly the record's bytes at indices
1 through 32 inclusive, which is the 32-byte group key when the group
occupies those bytes, i.e. under the layout `[1 version byte, 32-byte
signer-group key, 20-byte address]` (what the code's comment "cut off version
and eth address" describes). -/
theorem extractSignerGroup_group_first (v : Nat) (grp addr : List Nat)
    (h : grp.length = 32) :
    extractSignerGroup (v :: (grp ++ addr)) = grp := by
  have h2 : (grp ++ addr).take 32 = grp := by rw [← h]; exact List.take_left ..
  simpa [extractSignerGroup] using h2

/-- Witness for the amended C5 on a concrete 53-byte record. -/
theorem extractSignerGroup_group_first_witness :
    extractSignerGroup (0 :: (List.replicate 32 2 ++ List.replicate 20 1)) =
      List.replicate 32 2 :=
  extractSignerGroup_group_first 0 (List.replicate 32 2)
    (List.replicate 20 1) (by decide)

/-- C6 counterexample: on the 5-byte input `[0,1,2,3,4]` (shorter than 33
bytes) the extraction does not fail — there is no `MalformedRecord` or any
other error path in the code — it returns the 4-byte slice `[1,2,3,4]`. -/
theorem extractSignerGroup_short_input_cex :
    ([0, 1, 2, 3, 4] : List Nat).length < 33 ∧
      extractSignerGroup [0, 1, 2, 3, 4] = [1, 2, 3, 4] := by decide

/-- C6 amended: the extraction is total — for every input, short or not, it
returns the slice `bytes[1:33]`, of length `min 32 (length - 1)`; a shorter
than 33-byte input yields a short slice (passed on to the key constructor),
never a typed `MalformedRecord` failure. -/
theorem extractSignerGroup_total (data : List Nat) :
    (extractSignerGroup data).length = min 32 (data.length - 1) := by
  simp [extractSignerGroup]

/-- Taking exactly the first summand of an append. -/
theorem take_append_of_length {l1 l2 : List Nat} {n : Nat} (h : l1.length = n) :
    (l1 ++ l2).take n = l1 := by
  rw [← h]; exact List.take_left ..

/-- Dropping exactly the first summand of an append. -/
theorem drop_append_of_length {l1 l2 : List Nat} {n : Nat} (h : l1.length = n) :
    (l1 ++ l2).drop n = l2 := by
  rw [← h]; exact List.drop_left ..

/-- The length slot is always 4 bytes. -/
theorem lenSlot_length (len : Nat) : (lenSlot len).length = 4 := by
  unfold lenSlot; split <;> rfl

/-- The splice at offset 66 is a pure insertion: 4 bytes are added, the first
66 bytes and the remainder are preserved, and the inserted run is the slot. -/
theorem patchEnvelope_spec (env : List Nat) (L : Nat) (hlen : 66 ≤ env.length) :
    (patchEnvelope env L).length = env.length + 4 ∧
      (patchEnvelope env L).take 66 = env.take 66 ∧
      ((patchEnvelope env L).drop 66).take 4 = lenSlot L ∧
      (patchEnvelope env L).drop 70 = env.drop 66 := by
  have h66 : (env.take 66).length = 66 := by simp; omega
  have h70 : (env.take 66 ++ lenSlot L).length = 70 := by
    simp [lenSlot_length]; omega
  refine ⟨by simp [patchEnvelope, lenSlot_length]; omega, ?_, ?_, ?_⟩
  · rw [patchEnvelope, List.append_assoc, take_append_of_length h66]
  · rw [patchEnvelope, List.append_assoc, drop_append_of_length h66,
      take_append_of_length (lenSlot_length L)]
  · rw [patchEnvelope, drop_append_of_length h70]

/-- C2: the serialized raw-message envelope is `1 + 64 + 1 + message-length`
bytes; the patch inserts exactly the 4 slot bytes at offset 66, preserving
everything before and after; for a 5-byte message the envelope is 71 bytes
before the patch and 75 after. -/
theorem rawEnvelope_length_and_patch (sig : List Nat) (recid : Nat)
    (msg : List Nat) (h : sig.length = 64) :
    ∃ env, serializeRawEnvelope sig recid msg = some env ∧
      env.length = 1 + 64 + 1 + msg.length ∧
      (patchEnvelope env msg.length).length = env.length + 4 ∧
      (patchEnvelope env msg.length).take 66 = env.take 66 ∧
      ((patchEnvelope env msg.length).drop 66).take 4 = lenSlot msg.length ∧
      (patchEnvelope env msg.length).drop 70 = env.drop 66 ∧
      (msg.length = 5 →
        env.length = 71 ∧ (patchEnvelope env msg.length).length = 75) := by
  have hlen : (3 :: (sig ++ (recid % 256) :: msg)).length = 1 + 64 + 1 + msg.length := by
    simp [h]; omega
  obtain ⟨p1, p2, p3, p4⟩ :=
    patchEnvelope_spec (3 :: (sig ++ (recid % 256) :: msg)) msg.length (by omega)
  exact ⟨3 :: (sig ++ (recid % 256) :: msg), serializeRawEnvelope_eq sig recid msg h,
    hlen, p1, p2, p3, p4, fun h5 => ⟨by omega, by omega⟩⟩

/-- Witness for C2: the 5-byte message "hello" (UTF-8 `[104,101,108,108,111]`)
with a concrete 64-byte signature. -/
theorem rawEnvelope_length_and_patch_witness :
    ∃ env, serializeRawEnvelope (List.replicate 64 1) 0 [104, 101, 108, 108, 111] = some env ∧
      env.length = 1 + 64 + 1 + ([104, 101, 108, 108, 111] : List Nat).length ∧
      (patchEnvelope env ([104, 101, 108, 108, 111] : List Nat).length).length = env.length + 4 ∧
      (patchEnvelope env ([104, 101, 108, 108, 111] : List Nat).length).take 66 = env.take 66 ∧
      ((patchEnvelope env ([104, 101, 108, 108, 111] : List Nat).length).drop 66).take 4 =
        lenSlot ([104, 101, 108, 108, 111] : List Nat).length ∧
      (patchEnvelope env ([104, 101, 108, 108, 111] : List Nat).length).drop 70 = env.drop 66 ∧
      (([104, 101, 108, 108, 111] : List Nat).length = 5 →
        env.length = 71 ∧
          (patchEnvelope env ([104, 101, 108, 108, 111] : List Nat).length).length = 75) :=
  rawEnvelope_length_and_patch (List.replicate 64 1) 0 [104, 101, 108, 108, 111] (by decide)

/-- C3: the raw-message envelope always starts with tag byte 3 — the 0-based
index of the active variant `"instruction"` in the declared order
`[initSignerGroup, initValidSigner, clearValidSigner, instruction]` — and the
structured envelope always starts with tag byte 0, its enum having the single
variant `"instruction"`. -/
theorem envelope_tags (sig msg u t s : List Nat) (r : Nat)
    (h : sig.length = 64) :
    findVariant "instruction" (rawVariantOrder msg.length) =
        some (3, signatureDataSchema msg.length) ∧
      (∃ env, serializeRawEnvelope sig r msg = some env ∧
        env.head? = some 3) ∧
      findVariant "instruction" structuredVariantOrder =
        some (0, .struct (.cons trackDataSchema (.cons (.bytes 64) (.cons .u8 .nil)))) ∧
      (∃ env2, serializeStructuredEnvelope u t s sig r = some env2 ∧
        env2.head? = some 0) :=
  ⟨rfl, ⟨_, serializeRawEnvelope_eq sig r msg h, rfl⟩, rfl,
    ⟨_, serializeStructuredEnvelope_eq u t s sig r h, rfl⟩⟩

/-- Witness for C3 on a concrete signature and payloads. -/
theorem envelope_tags_witness :
    findVariant "instruction" (rawVariantOrder ([5, 6] : List Nat).length) =
        some (3, signatureDataSchema ([5, 6] : List Nat).length) ∧
      (∃ env, serializeRawEnvelope (List.replicate 64 9) 1 [5, 6] = some env ∧
        env.head? = some 3) ∧
      findVariant "instruction" structuredVariantOrder =
        some (0, .struct (.cons trackDataSchema (.cons (.bytes 64) (.cons .u8 .nil)))) ∧
      (∃ env2, serializeStructuredEnvelope [97] [98] [99] (List.replicate 64 9) 1 = some env2 ∧
        env2.head? = some 0) :=
  envelope_tags (List.replicate 64 9) [5, 6] [97] [98] [99] 1 (by decide)

/-- C4: the digest signed in the structured variant is Keccak-256 (held
abstract) of the borsh serialization of the `TrackData` struct — the three
fields in order `user_id`, `track_id`, `source`, each as a 4-byte
little-endian length prefix followed by its UTF-8 bytes — not a hash of the
logical string fields themselves. -/
theorem structuredDigest_eq_keccak_serialized (keccak : List Nat → List Nat)
    (u t s : List Nat) :
    structuredDigest keccak u t s =
      some (keccak (u32le u.length ++ (u ++ (u32le t.length ++ (t ++
        (u32le s.length ++ s)))))) := by
  simp [structuredDigest, serializeTrackData_eq]

/-- C7: for every supported schema and every conforming value, decoding the
encoding returns the value (and leaves trailing bytes untouched). -/
theorem decode_encode_roundtrip (S : BSchema) (v : BValue) (h : Conforms S v)
    (rest : List Nat) :
    ∃ bs, encode S v = some bs ∧ decode S (bs ++ rest) = some (v, rest) :=
  decode_encode_aux h rest

/-- Witness for C7: the raw-message instruction schema (u8, fixed byte
arrays, a 4-deep enum, nested structs) at a concrete conforming value. -/
theorem decode_encode_roundtrip_witness :
    ∃ bs,
      encode (rawInstructionSchema 2)
          (.enumv "instruction" (.struct (.cons (.bytes (List.replicate 64 9))
            (.cons (.u8 1) (.cons (.bytes [5, 6]) .nil))))) = some bs ∧
        decode (rawInstructionSchema 2) (bs ++ []) =
          some (.enumv "instruction" (.struct (.cons (.bytes (List.replicate 64 9))
            (.cons (.u8 1) (.cons (.bytes [5, 6]) .nil)))), []) :=
  decode_encode_roundtrip _ _
    (Conforms.enumv (rfl :
        findVariant "instruction" (rawVariantOrder 2) =
          some (3, signatureDataSchema 2))
      (by decide)
      (Conforms.struct
        (ConformsFields.cons (Conforms.bytes (by simp) (by simp))
          (ConformsFields.cons (Conforms.u8 (by omega))
            (ConformsFields.cons (Conforms.bytes (by simp) (by decide))
              ConformsFields.nil)))))
    []

/-- C8: recovering a public key from the signature produced by ECDSA-signing
a digest with private scalar `d` (any nonce `k`, digest `z`) yields exactly
`d`'s own public key. -/
theorem recover_sign_eq_publicKey (n : Nat) [Fact (Nat.Prime n)]
    (xc : ZMod n → ZMod n) (g d k z : ZMod n) (hk : k ≠ 0)
    (hr : xc (k * g) ≠ 0) :
    recoverPublicKey n xc g (k * g) z (ecdsaSign n xc g d k z).2 =
      publicKeyOf n g d := by
  unfold recoverPublicKey ecdsaSign publicKeyOf
  field_simp
  ring

/-- Witness for C8 in the order-7 model with identity x-coordinate map:
`d = 2`, `k = 3`, `z = 4`. -/
theorem recover_sign_eq_publicKey_witness :
    recoverPublicKey 7 id 1 (3 * 1) 4 ((ecdsaSign 7 id 1 2 3 4).2) =
      publicKeyOf 7 1 2 :=
  recover_sign_eq_publicKey 7 id 1 2 3 4 (by decide) (by decide)

/-- C9: each operation's transaction holds exactly two instructions, the
Secp256k1 signature-check instruction strictly before the domain program
instruction (the Audius program on the raw path, the create-and-verify
program on the structured path). -/
theorem transactions_two_instrs_ordered (pubKey sig : List Nat) (recid : Nat)
    (msg validSignerKey accData u t s : List Nat) (h : sig.length = 64) :
    (∃ tx, validateSignatureInstrs pubKey sig recid msg validSignerKey accData =
        some tx ∧
      tx.length = 2 ∧
      tx[0]? = some (.secpCheck ⟨pubKey, msg, sig, recid⟩) ∧
      ∃ ks env, tx[1]? = some (.programCall .audiusProgram ks env)) ∧
    (∃ tx2 track,
      createAndVerifyInstrs pubKey sig recid u t s validSignerKey accData =
        some tx2 ∧
      serializeTrackData u t s = some track ∧
      tx2.length = 2 ∧
      tx2[0]? = some (.secpCheck ⟨pubKey, track, sig, recid⟩) ∧
      ∃ ks env2, tx2[1]? = some (.programCall .createAndVerifyProgram ks env2)) := by
  constructor
  · have e1 : validateSignatureInstrs pubKey sig recid msg validSignerKey accData =
        some [.secpCheck ⟨pubKey, msg, sig, recid⟩,
          .programCall .audiusProgram
            [(.key validSignerKey, false, false),
             (.key (extractSignerGroup accData), false, false),
             (.instructionsSysvar, false, false)]
            (patchEnvelope (3 :: (sig ++ (recid % 256) :: msg)) msg.length)] := by
      simp [validateSignatureInstrs, serializeRawEnvelope_eq sig recid msg h]
    exact ⟨_, e1, rfl, rfl, _, _, rfl⟩
  · have e2 : createAndVerifyInstrs pubKey sig recid u t s validSignerKey accData =
        some [.secpCheck ⟨pubKey,
            u32le u.length ++ (u ++ (u32le t.length ++ (t ++ (u32le s.length ++ s)))),
            sig, recid⟩,
          .programCall .createAndVerifyProgram
            [(.key validSignerKey, false, false),
             (.key (extractSignerGroup accData), false, false),
             (.audiusProgram, false, false),
             (.instructionsSysvar, false, false)]
            (0 :: (u32le u.length ++ (u ++ (u32le t.length ++ (t ++
              (u32le s.length ++ (s ++ (sig ++ [recid % 256]))))))))] := by
      simp [createAndVerifyInstrs, serializeTrackData_eq,
        serializeStructuredEnvelope_eq u t s sig recid h]
    exact ⟨_, _, e2, serializeTrackData_eq u t s, rfl, rfl, _, _, rfl⟩

/-- Witness for C9 on concrete arguments. -/
theorem transactions_two_instrs_ordered_witness :
    (∃ tx, validateSignatureInstrs [4] (List.replicate 64 1) 0 [104] [7]
        (List.replicate 53 2) = some tx ∧
      tx.length = 2 ∧
      tx[0]? = some (.secpCheck ⟨[4], [104], List.replicate 64 1, 0⟩) ∧
      ∃ ks env, tx[1]? = some (.programCall .audiusProgram ks env)) ∧
    (∃ tx2 track,
      createAndVerifyInstrs [4] (List.replicate 64 1) 0 [97] [98] [99] [7]
        (List.replicate 53 2) = some tx2 ∧
      serializeTrackData [97] [98] [99] = some track ∧
      tx2.length = 2 ∧
      tx2[0]? = some (.secpCheck ⟨[4], track, List.replicate 64 1, 0⟩) ∧
      ∃ ks env2, tx2[1]? = some (.programCall .createAndVerifyProgram ks env2)) :=
  transactions_two_instrs_ordered [4] (List.replicate 64 1) 0 [104] [7]
    (List.replicate 53 2) [97] [98] [99] (by decide)
